import Mathlib

/-!
Verification of the task-supervision core of the workspace control server
(`charts/workspace/server.py`): the token authority (`ClaudeTaskManager`
token methods), the authorization checks of `BrowserHandler`, and the task
lifecycle operations (create, follow-up, delete, reconcile, output).

Conventions of the embedding:
* The token file on disk is `TokenState.tokenFile` (`none` = file absent,
  `some c` = file present with content `c`).  Python's `str.strip()` is
  modelled by `pyStrip`.
* `secrets.token_urlsafe(36)` is modelled by a `fresh : String` parameter
  (the next random token the generator would return).
* The current wall-clock `time.time()` is modelled by a `now : Nat`
  parameter.
* tmux is modelled through an `alive : String → Bool` liveness oracle
  (`tmux has-session`), an optional captured pane content
  (`capture-pane`), and a `pasteOk : Bool` flag telling whether the
  checked `load-buffer`/`paste-buffer` calls succeed.
* Per-task persistence (`~/.claude-tasks/<id>/task.json`) is a `Store`:
  a lookup function from task id to the persisted metadata record plus the
  list of created task directories.
* Pane/log text is modelled as `List Char`; Python's `split('\n')` is
  `List.splitOn`, `'\n'.join` is `List.intercalate ['\n']`, `readlines`
  is `pyReadlines`, and `lines[-t:]` (for `t > 0`) is `takeLast`.
-/

/-- Python `str.strip()` on raw text: drop leading and trailing
whitespace characters. -/
def stripChars (l : List Char) : List Char :=
  ((l.dropWhile Char.isWhitespace).reverse.dropWhile Char.isWhitespace).reverse

/-- Python `str.strip()` on a `String` (a structural model of
`String.trim` that the kernel can evaluate). -/
def pyStrip (s : String) : String := String.mk (stripChars s.data)

/-- Python `s[n:]`: drop the first `n` characters. -/
def pyDrop (s : String) (n : Nat) : String := String.mk (s.data.drop n)

/-- Python `s.startswith(pre)`. -/
def pyStartsWith (s pre : String) : Bool := pre.data.isPrefixOf s.data

/-- State of the fixed-path token file `.api-token`:
`none` when the file does not exist, `some c` when it holds content `c`. -/
structure TokenState where
  tokenFile : Option String
deriving DecidableEq, Repr

/-- `ClaudeTaskManager.get_or_create_token`: if the file exists and its
stripped content is non-empty, return that; otherwise write `fresh`
(the next `secrets.token_urlsafe(36)` value) and return it. -/
def get_or_create_token (s : TokenState) (fresh : String) : String × TokenState :=
  match s.tokenFile with
  | some content =>
      let token := pyStrip content
      if token ≠ "" then (token, s)
      else (fresh, { tokenFile := some fresh })
  | none => (fresh, { tokenFile := some fresh })

/-- `ClaudeTaskManager.verify_token`: false when the token file is absent,
else constant-time comparison of the candidate with the stripped file
content (`secrets.compare_digest(token, stored)` with
`stored = f.read().strip()`). -/
def verify_token (s : TokenState) (candidate : String) : Bool :=
  match s.tokenFile with
  | none => false
  | some content => candidate == pyStrip content

/-- `ClaudeTaskManager.regenerate_token`: unconditionally overwrite the
token file with `fresh` and return it. -/
def regenerate_token (_s : TokenState) (fresh : String) : String × TokenState :=
  (fresh, { tokenFile := some fresh })

/-- The request headers the authorization checks look at.  A Python header
lookup that misses yields `None`/`''`, both falsy; the embedding uses `""`
for an absent header, matching that truthiness. -/
structure Headers where
  xAuthRequestUser : String
  xAuthRequestEmail : String
  remoteUser : String
  authHeader : String
deriving DecidableEq, Repr

/-- Python truthiness of a string: non-empty. -/
def pyTruthy (s : String) : Bool := !(s.data.isEmpty)

/-- `BrowserHandler.check_oauth_only`: true only when OAuth2 proxy identity
headers are present; the `Authorization` header is ignored. -/
def check_oauth_only (h : Headers) : Bool :=
  if pyTruthy h.xAuthRequestUser || pyTruthy h.xAuthRequestEmail then true
  else if pyTruthy h.remoteUser then true
  else false

/-- `BrowserHandler.check_claude_auth`: proxy identity headers OR a
`Bearer` token that verifies against the stored token. -/
def check_claude_auth (h : Headers) (s : TokenState) : Bool :=
  if pyTruthy h.xAuthRequestUser || pyTruthy h.xAuthRequestEmail then true
  else if pyTruthy h.remoteUser then true
  else if pyStartsWith h.authHeader "Bearer " then
    verify_token s (pyStrip (pyDrop h.authHeader 7))
  else false

/-- `BrowserHandler.handle_claude_get_token`: 401 without proxy headers,
otherwise get-or-create the token and answer 200 with it. -/
def handle_claude_get_token (h : Headers) (s : TokenState) (fresh : String) :
    Nat × Option String × TokenState :=
  if !(check_oauth_only h) then (401, none, s)
  else
    let r := get_or_create_token s fresh
    (200, some r.1, r.2)

/-- `BrowserHandler.handle_claude_regenerate_token`: 401 without proxy
headers, otherwise regenerate and answer 200 with the new token. -/
def handle_claude_regenerate_token (h : Headers) (s : TokenState) (fresh : String) :
    Nat × Option String × TokenState :=
  if !(check_oauth_only h) then (401, none, s)
  else
    let r := regenerate_token s fresh
    (200, some r.1, r.2)

/-- One follow-up entry appended by `send_followup`. -/
structure Followup where
  prompt : String
  sent_at : Nat
deriving DecidableEq, Repr

/-- The persisted `task.json` record. -/
structure Meta where
  task_id : String
  session_id : String
  prompt : String
  workdir : String
  status : String
  created_at : Nat
  tmux_session : String
  finished_at : Option Nat := none
  killed_at : Option Nat := none
  followups : List Followup := []
  error : Option String := none
deriving DecidableEq, Repr

/-- On-disk task state: `tasks` maps a task id to its persisted `task.json`
record (`none` = no metadata file), `dirs` lists created task directories. -/
structure Store where
  tasks : String → Option Meta
  dirs : List String

/-- Store with the record of one task replaced. -/
def Store.put (st : Store) (id : String) (m : Meta) : Store :=
  { st with tasks := fun i => if i = id then some m else st.tasks i }

/-- Inputs that `create_task` draws from the environment: the generated
task id (time prefix + random hex), the generated session UUID, the clock,
and whether `tmux new-session` succeeds (with its stderr if not). -/
structure CreateEnv where
  task_id : String
  session_id : String
  now : Nat
  startOk : Bool
  startErr : String

/-- `ClaudeTaskManager.create_task`: make the task directory, persist the
initial record with status `running`, start the detached tmux session; on
start failure rewrite the record with status `error` and the stderr
message.  (The delayed prompt paste runs on a daemon thread and never
touches the metadata, so it does not appear in the state.) -/
def create_task (st : Store) (env : CreateEnv) (prompt : String)
    (workdir : Option String) : Meta × Store :=
  let wd := workdir.getD "/home/dev"
  let session_name := "claude-" ++ env.task_id
  let meta : Meta :=
    { task_id := env.task_id, session_id := env.session_id, prompt := prompt,
      workdir := wd, status := "running", created_at := env.now,
      tmux_session := session_name }
  let st1 := { (st.put env.task_id meta) with dirs := env.task_id :: st.dirs }
  if env.startOk then (meta, st1)
  else
    let meta2 := { meta with status := "error", error := some env.startErr }
    (meta2, st1.put env.task_id meta2)

/-- Body of `POST /api/claude/tasks` (`none` field = key absent). -/
structure CreateBody where
  prompt : Option String
  workdir : Option String
deriving DecidableEq, Repr

/-- `BrowserHandler.handle_claude_create_task`: 401 when unauthenticated,
400 on malformed JSON (`body = none`) or empty/whitespace-only prompt,
otherwise create the task and answer 201.  Result: HTTP status and the
store after the request. -/
def handle_claude_create_task (h : Headers) (ts : TokenState)
    (body : Option CreateBody) (st : Store) (env : CreateEnv) : Nat × Store :=
  if !(check_claude_auth h ts) then (401, st)
  else
    match body with
    | none => (400, st)
    | some b =>
      let prompt := pyStrip (b.prompt.getD "")
      if prompt = "" then (400, st)
      else (201, (create_task st env prompt b.workdir).2)

/-- `ClaudeTaskManager._reconcile_status`: only a `running` record with a
non-empty session name whose tmux session is gone is rewritten to
`completed` with `finished_at := now`; the boolean reports whether the
record was written back to disk. -/
def reconcile_status (alive : String → Bool) (now : Nat) (meta : Meta) :
    Meta × Bool :=
  if meta.status ≠ "running" then (meta, false)
  else if meta.tmux_session = "" then (meta, false)
  else if alive meta.tmux_session then (meta, false)
  else ({ meta with status := "completed", finished_at := some now }, true)

/-- `ClaudeTaskManager.send_followup`: not-found when the metadata file is
absent; "Session is no longer running" when `tmux has-session` fails, with
no state change; a paste failure (`pasteOk = false`) also leaves the
metadata unchanged; on success append `{prompt, sent_at}` to `followups`,
set status `running` and persist. -/
def send_followup (st : Store) (alive : String → Bool) (pasteOk : Bool)
    (now : Nat) (task_id prompt : String) :
    (Option Meta × Option String) × Store :=
  match st.tasks task_id with
  | none => ((none, some "Task not found"), st)
  | some meta =>
    if !(alive meta.tmux_session) then
      ((none, some "Session is no longer running"), st)
    else if !pasteOk then
      ((none, some "Failed to send follow-up"), st)
    else
      let meta2 := { meta with
        status := "running",
        followups := meta.followups ++ [{ prompt := prompt, sent_at := now }] }
      ((some meta2, none), st.put task_id meta2)

/-- `ClaudeTaskManager.delete_task`: not-found when the metadata file is
absent; otherwise kill the tmux session (unchecked, idempotent), set
status `killed` and `killed_at := now`, persist, and return the record. -/
def delete_task (st : Store) (now : Nat) (task_id : String) :
    Option Meta × Store :=
  match st.tasks task_id with
  | none => (none, st)
  | some meta =>
    let meta2 := { meta with status := "killed", killed_at := some now }
    (some meta2, st.put task_id meta2)

/-- Python truthiness of the optional `tail` integer: `None` and `0` are
falsy. -/
def pyTruthyTail : Option Nat → Bool
  | none => false
  | some t => t != 0

/-- Python `lines[-t:]` for `t > 0`: the last `t` elements (all of them
when fewer than `t` exist). -/
def takeLast {α : Type} (l : List α) (t : Nat) : List α :=
  l.drop (l.length - t)

/-- Helper for `pyReadlines`: re-attach `'\n'` to every part produced by
splitting on `'\n'` except the final one, which is dropped when empty. -/
def attachEnds : List (List Char) → List (List Char)
  | [] => []
  | [p] => if p = [] then [] else [p]
  | p :: q :: rest => (p ++ ['\n']) :: attachEnds (q :: rest)

/-- Python `file.readlines()`: split into lines, each keeping its
terminating newline; a final unterminated line is kept, a trailing empty
piece is not. -/
def pyReadlines (s : List Char) : List (List Char) :=
  attachEnds (s.splitOn '\n')

/-- Number of lines of a text, counted the way Python's `readlines`
does (a trailing newline does not start an extra line). -/
def numLines (s : List Char) : Nat := (pyReadlines s).length

/-- The fallback path of `get_task_output`: read `output.log` if present
(applying `tail` via `readlines`), else the sentinel. -/
def output_from_log (logFile : Option (List Char)) (tail : Option Nat) :
    List Char :=
  match logFile with
  | some content =>
      if pyTruthyTail tail then (takeLast (pyReadlines content) (tail.getD 0)).flatten
      else content
  | none => "(no output available)".toList

/-- `ClaudeTaskManager.get_task_output`: `none` when the metadata file is
absent; prefer a live `tmux capture-pane` result (`capture = some out`
with non-blank `out`), applying `tail` by splitting on newlines and
rejoining the last `t`; otherwise fall back to `output.log` / sentinel. -/
def get_task_output (st : Store) (capture : Option (List Char))
    (logFile : Option (List Char)) (task_id : String) (tail : Option Nat) :
    Option (List Char) :=
  match st.tasks task_id with
  | none => none
  | some _ =>
    match capture with
    | some out =>
      if stripChars out ≠ [] then
        if pyTruthyTail tail then
          some (List.intercalate ['\n'] (takeLast (out.splitOn '\n') (tail.getD 0)))
        else some out
      else some (output_from_log logFile tail)
    | none => some (output_from_log logFile tail)

/-- A running task as `create_task` would persist it, used as concrete
input by the witnesses below. -/
def sampleMeta : Meta :=
  { task_id := "t1", session_id := "s1", prompt := "echo hi",
    workdir := "/home/dev", status := "running", created_at := 10,
    tmux_session := "claude-t1" }

/-- A completed task record. -/
def sampleMetaDone : Meta :=
  { sampleMeta with status := "completed", finished_at := some 20 }

/-- A one-task store holding `sampleMeta` under id `"t1"`. -/
def sampleStore : Store :=
  { tasks := fun i => if i = "t1" then some sampleMeta else none,
    dirs := ["t1"] }

/-- A liveness oracle under which every tmux session is gone. -/
def deadBackend : String → Bool := fun _ => false

/-- A liveness oracle under which every tmux session is alive. -/
def liveBackend : String → Bool := fun _ => true

/-- C1: `verify(candidate)` is true iff the token file exists and the
candidate equals the stored token (the file content as written by the
token authority, which never has surrounding whitespace, hence
`pyStrip t = t`); after `regenerate` replaces the token, the old token is
rejected and the new one accepted. -/
theorem verify_token_correct (s : TokenState) (old fresh : String)
    (hf : pyStrip fresh = fresh) (hne : old ≠ fresh) :
    (∀ c, s.tokenFile = none → verify_token s c = false) ∧
    (∀ c t, s.tokenFile = some t → pyStrip t = t →
      (verify_token s c = true ↔ c = t)) ∧
    (verify_token (regenerate_token s fresh).2 (regenerate_token s fresh).1 = true ∧
      verify_token (regenerate_token s fresh).2 old = false) := by
  refine ⟨?_, ?_, ?_, ?_⟩
  · intro c h
    simp [verify_token, h]
  · intro c t h ht
    simp [verify_token, h, ht]
  · simp [verify_token, regenerate_token, hf]
  · simp [verify_token, regenerate_token, hf, hne]

/-- Witness for C1 at a concrete token state. -/
theorem verify_token_correct_witness :
    pyStrip "newtok" = "newtok" ∧ "oldtok" ≠ "newtok" ∧
    (verify_token (regenerate_token { tokenFile := some "oldtok" } "newtok").2
        (regenerate_token { tokenFile := some "oldtok" } "newtok").1 = true ∧
      verify_token (regenerate_token { tokenFile := some "oldtok" } "newtok").2
        "oldtok" = false) :=
  ⟨by decide, by decide,
    (verify_token_correct { tokenFile := some "oldtok" } "oldtok" "newtok"
      (by decide) (by decide)).2.2⟩

/-- C2: the token-issuing endpoints answer 401 whenever the proxy identity
headers are absent, no matter what `Authorization` header the request
carries (in particular a bearer header holding the valid current token). -/
theorem token_endpoints_oauth_only (h : Headers) (s : TokenState) (fresh : String)
    (h1 : h.xAuthRequestUser = "") (h2 : h.xAuthRequestEmail = "")
    (h3 : h.remoteUser = "") :
    handle_claude_get_token h s fresh = (401, none, s) ∧
    handle_claude_regenerate_token h s fresh = (401, none, s) := by
  have hemp : pyTruthy "" = false := by decide
  have hc : check_oauth_only h = false := by
    simp [check_oauth_only, h1, h2, h3, hemp]
  constructor <;>
    simp [handle_claude_get_token, handle_claude_regenerate_token, hc]

/-- Witness for C2: a request whose only credential is a bearer header
carrying the valid stored token still gets 401 from both endpoints, even
though the same credential passes `check_claude_auth`. -/
theorem token_endpoints_oauth_only_witness :
    check_claude_auth ⟨"", "", "", "Bearer tok123"⟩ { tokenFile := some "tok123" } = true ∧
    (handle_claude_get_token ⟨"", "", "", "Bearer tok123"⟩
        { tokenFile := some "tok123" } "f" = (401, none, { tokenFile := some "tok123" }) ∧
      handle_claude_regenerate_token ⟨"", "", "", "Bearer tok123"⟩
        { tokenFile := some "tok123" } "f" = (401, none, { tokenFile := some "tok123" })) :=
  ⟨by decide,
    token_endpoints_oauth_only ⟨"", "", "", "Bearer tok123"⟩
      { tokenFile := some "tok123" } "f" rfl rfl rfl⟩

/-- C9: a token file whose content strips to the empty string is treated as
absent by `get_or_create_token`: a fresh token is generated, written and
returned; the operation never returns an empty token (the generator output
`fresh` is non-empty). -/
theorem get_or_create_token_nonempty (s : TokenState) (fresh : String)
    (hf : fresh ≠ "") :
    (∀ c, s.tokenFile = some c → pyStrip c = "" →
      get_or_create_token s fresh = (fresh, { tokenFile := some fresh })) ∧
    (get_or_create_token s fresh).1 ≠ "" := by
  constructor
  · intro c hc hstrip
    simp [get_or_create_token, hc, hstrip]
  · unfold get_or_create_token
    cases h : s.tokenFile with
    | none => simpa using hf
    | some content =>
      by_cases hp : pyStrip content = ""
      · simp [hp, hf]
      · simp [hp]

/-- Witness for C9: a whitespace-only token file is replaced by the fresh
token. -/
theorem get_or_create_token_nonempty_witness :
    "fresh1" ≠ "" ∧ pyStrip "   " = "" ∧
    (get_or_create_token { tokenFile := some "   " } "fresh1" =
        ("fresh1", { tokenFile := some "fresh1" }) ∧
      (get_or_create_token { tokenFile := some "   " } "fresh1").1 ≠ "") :=
  ⟨by decide, by decide,
    (get_or_create_token_nonempty { tokenFile := some "   " } "fresh1"
        (by decide)).1 "   " rfl (by decide),
    (get_or_create_token_nonempty { tokenFile := some "   " } "fresh1"
        (by decide)).2⟩

/-- C5: an authenticated create request whose prompt is empty or
whitespace-only is rejected with 400, and the store (task records and task
directories) is exactly what it was before: nothing is created. -/
theorem create_task_empty_prompt_rejected (h : Headers) (ts : TokenState)
    (b : CreateBody) (st : Store) (env : CreateEnv)
    (hauth : check_claude_auth h ts = true)
    (hp : pyStrip (b.prompt.getD "") = "") :
    handle_claude_create_task h ts (some b) st env = (400, st) := by
  simp [handle_claude_create_task, hauth, hp]

/-- Witness for C5: a proxy-authenticated request with a whitespace-only
prompt gets 400 and leaves the sample store untouched. -/
theorem create_task_empty_prompt_rejected_witness :
    check_claude_auth ⟨"u", "", "", ""⟩ { tokenFile := none } = true ∧
    pyStrip ((some "   ").getD "") = "" ∧
    handle_claude_create_task ⟨"u", "", "", ""⟩ { tokenFile := none }
      (some { prompt := some "   ", workdir := none }) sampleStore
      { task_id := "t2", session_id := "s2", now := 30, startOk := true, startErr := "" } =
      (400, sampleStore) :=
  ⟨by decide, by decide,
    create_task_empty_prompt_rejected ⟨"u", "", "", ""⟩ { tokenFile := none }
      { prompt := some "   ", workdir := none } sampleStore
      { task_id := "t2", session_id := "s2", now := 30, startOk := true, startErr := "" }
      (by decide) (by decide)⟩

/-- C3: `_reconcile_status` on a `running` record whose (non-empty) tmux
session is gone rewrites the status to `completed`, sets `finished_at` to
the current time and writes the record back; on a record whose status is
not `running` it changes nothing and writes nothing. -/
theorem reconcile_status_correct (alive : String → Bool) (now : Nat) (meta : Meta) :
    (meta.status = "running" → meta.tmux_session ≠ "" →
      alive meta.tmux_session = false →
      reconcile_status alive now meta =
        ({ meta with status := "completed", finished_at := some now }, true)) ∧
    (meta.status ≠ "running" → reconcile_status alive now meta = (meta, false)) := by
  constructor
  · intro h1 h2 h3
    simp [reconcile_status, h1, h2, h3]
  · intro h1
    simp [reconcile_status, h1]

/-- Witness for C3: the sample running task completes when its session is
gone; a completed record is left alone. -/
theorem reconcile_status_correct_witness :
    (sampleMeta.status = "running" ∧ sampleMeta.tmux_session ≠ "" ∧
      deadBackend sampleMeta.tmux_session = false ∧
      reconcile_status deadBackend 42 sampleMeta =
        ({ sampleMeta with status := "completed", finished_at := some 42 }, true)) ∧
    (sampleMetaDone.status ≠ "running" ∧
      reconcile_status deadBackend 42 sampleMetaDone = (sampleMetaDone, false)) :=
  ⟨⟨rfl, by decide, rfl,
      (reconcile_status_correct deadBackend 42 sampleMeta).1 rfl (by decide) rfl⟩,
    ⟨by decide,
      (reconcile_status_correct deadBackend 42 sampleMetaDone).2 (by decide)⟩⟩

/-- C4: `send_followup` on a task whose tmux session is dead fails with
"Session is no longer running" and returns the store unchanged (followups
and status untouched); on a live session with a successful paste it
appends `{prompt, sent_at}` to `followups`, sets status `running`, and
persists the updated record. -/
theorem send_followup_correct (st : Store) (alive : String → Bool)
    (pasteOk : Bool) (now : Nat) (id p : String) (m : Meta)
    (hm : st.tasks id = some m) :
    (alive m.tmux_session = false →
      send_followup st alive pasteOk now id p =
        ((none, some "Session is no longer running"), st)) ∧
    (alive m.tmux_session = true → pasteOk = true →
      send_followup st alive pasteOk now id p =
        ((some { m with
                 status := "running",
                 followups := m.followups ++ [{ prompt := p, sent_at := now }] },
          none),
          st.put id { m with
                      status := "running",
                      followups := m.followups ++ [{ prompt := p, sent_at := now }] })) := by
  constructor
  · intro hdead
    simp [send_followup, hm, hdead]
  · intro halive hpaste
    simp [send_followup, hm, halive, hpaste]

/-- Witness for C4: dead session leaves the sample store untouched; live
session with successful paste appends the follow-up. -/
theorem send_followup_correct_witness :
    sampleStore.tasks "t1" = some sampleMeta ∧
    deadBackend sampleMeta.tmux_session = false ∧
    send_followup sampleStore deadBackend true 50 "t1" "more" =
      ((none, some "Session is no longer running"), sampleStore) ∧
    send_followup sampleStore liveBackend true 50 "t1" "more" =
      ((some { sampleMeta with
               status := "running",
               followups := [{ prompt := "more", sent_at := 50 }] },
        none),
        sampleStore.put "t1" { sampleMeta with
                               status := "running",
                               followups := [{ prompt := "more", sent_at := 50 }] }) :=
  ⟨by decide, rfl,
    (send_followup_correct sampleStore deadBackend true 50 "t1" "more"
      sampleMeta (by decide)).1 rfl,
    (send_followup_correct sampleStore liveBackend true 50 "t1" "more"
      sampleMeta (by decide)).2 rfl rfl⟩

/-- C6: `delete_task` on an unknown id reports not-found and changes
nothing; on a known id it is repeatable: both a first and a second delete
return a record with status `killed` (each stamping `killed_at` with its
own clock value). -/
theorem delete_task_idempotent (st : Store) (id : String) (n1 n2 : Nat) :
    (st.tasks id = none → delete_task st n1 id = (none, st)) ∧
    (∀ m, st.tasks id = some m →
      (delete_task st n1 id).1 =
        some { m with status := "killed", killed_at := some n1 } ∧
      (delete_task (delete_task st n1 id).2 n2 id).1 =
        some { m with status := "killed", killed_at := some n2 }) := by
  constructor
  · intro h
    simp [delete_task, h]
  · intro m hm
    constructor
    · simp [delete_task, hm]
    · simp [delete_task, hm, Store.put]

/-- Witness for C6 at the sample store: unknown id and double delete. -/
theorem delete_task_idempotent_witness :
    sampleStore.tasks "missing" = none ∧
    delete_task sampleStore 1 "missing" = (none, sampleStore) ∧
    sampleStore.tasks "t1" = some sampleMeta ∧
    ((delete_task sampleStore 1 "t1").1 =
        some { sampleMeta with status := "killed", killed_at := some 1 } ∧
      (delete_task (delete_task sampleStore 1 "t1").2 2 "t1").1 =
        some { sampleMeta with status := "killed", killed_at := some 2 }) :=
  ⟨by decide,
    (delete_task_idempotent sampleStore "missing" 1 2).1 (by decide),
    by decide,
    (delete_task_idempotent sampleStore "t1" 1 2).2 sampleMeta (by decide)⟩

/-- C7 counterexample, two rewrites the claim forbids.  (1) `delete_task`
stamps `killed_at` unconditionally (`meta['killed_at'] = time.time()`), so
deleting the sample task at time 1 sets `killed_at = some 1` and deleting
again at time 2 changes it to `some 2`.  (2) Reconcile stamps
`finished_at` on every `running`-with-dead-session record: after the
sample task is reconciled at time 20 (`finished_at = some 20`), a
follow-up at time 30 — its session name alive again — resets status to
`running` without clearing `finished_at`, and the next reconcile at
time 99 rewrites the already-set `finished_at` to `some 99`. -/
theorem timestamps_rewritten_counterexample :
    ((delete_task sampleStore 1 "t1").1.map Meta.killed_at = some (some 1) ∧
      (delete_task (delete_task sampleStore 1 "t1").2 2 "t1").1.map Meta.killed_at =
        some (some 2) ∧
      (delete_task (delete_task sampleStore 1 "t1").2 2 "t1").1.map Meta.killed_at ≠
        (delete_task sampleStore 1 "t1").1.map Meta.killed_at) ∧
    ((reconcile_status deadBackend 20 sampleMeta).1.finished_at = some 20 ∧
      (send_followup (sampleStore.put "t1" (reconcile_status deadBackend 20 sampleMeta).1)
          liveBackend true 30 "t1" "again").1.1.map Meta.status = some "running" ∧
      (send_followup (sampleStore.put "t1" (reconcile_status deadBackend 20 sampleMeta).1)
          liveBackend true 30 "t1" "again").1.1.map Meta.finished_at = some (some 20) ∧
      (send_followup (sampleStore.put "t1" (reconcile_status deadBackend 20 sampleMeta).1)
          liveBackend true 30 "t1" "again").1.1.map
          (fun m => (reconcile_status deadBackend 99 m).1.finished_at) = some (some 99)) := by
  refine ⟨⟨by decide, by decide, by decide⟩, by decide, by decide, by decide, by decide⟩

/-- C7 amended: `created_at` is never rewritten (reconcile, follow-up and
delete all preserve it); a successful follow-up also preserves
`finished_at` and `killed_at`.  But `finished_at` and `killed_at` are
stamped, not guarded: Reconcile writes `finished_at := now` on every
`running` record with a non-empty, dead session name — overwriting a
previously set value if a follow-up had reset a reconciled task to
`running` — and leaves it unchanged in every other case; Delete preserves
`finished_at` and writes `killed_at := now` on every call, so a second
Delete overwrites `killed_at` with the later timestamp. -/
theorem timestamps_amended (st : Store) (alive : String → Bool)
    (pasteOk : Bool) (now n1 n2 : Nat) (id p : String) :
    (∀ m : Meta, (reconcile_status alive now m).1.created_at = m.created_at ∧
      (reconcile_status alive now m).1.killed_at = m.killed_at) ∧
    (∀ m : Meta, (reconcile_status alive now m).1.finished_at =
      (if m.status = "running" ∧ m.tmux_session ≠ "" ∧ alive m.tmux_session = false
        then some now else m.finished_at)) ∧
    (∀ m m2, st.tasks id = some m →
      (send_followup st alive pasteOk now id p).1.1 = some m2 →
      m2.created_at = m.created_at ∧ m2.finished_at = m.finished_at ∧
        m2.killed_at = m.killed_at) ∧
    (∀ m, st.tasks id = some m →
      (delete_task st n1 id).1.map Meta.created_at = some m.created_at ∧
      (delete_task st n1 id).1.map Meta.finished_at = some m.finished_at ∧
      (delete_task st n1 id).1.map Meta.killed_at = some (some n1)) ∧
    (∀ m, st.tasks id = some m →
      (delete_task (delete_task st n1 id).2 n2 id).1.map Meta.killed_at =
        some (some n2)) := by
  refine ⟨?_, ?_, ?_, ?_, ?_⟩
  · intro m
    by_cases h1 : m.status = "running" <;>
      by_cases h2 : m.tmux_session = "" <;>
      by_cases h3 : alive m.tmux_session <;>
      simp [reconcile_status, h1, h2, h3]
  · intro m
    by_cases h1 : m.status = "running" <;>
      by_cases h2 : m.tmux_session = "" <;>
      by_cases h3 : alive m.tmux_session <;>
      simp [reconcile_status, h1, h2, h3]
  · intro m m2 hm h
    by_cases ha : alive m.tmux_session <;> by_cases hp : pasteOk <;>
      simp [send_followup, hm, ha, hp] at h <;> simp [← h]
  · intro m hm
    simp [delete_task, hm]
  · intro m hm
    simp [delete_task, hm, Store.put]

/-- Witness for the amended C7 at the sample store. -/
theorem timestamps_amended_witness :
    (reconcile_status deadBackend 9 sampleMeta).1.created_at = sampleMeta.created_at ∧
    (reconcile_status deadBackend 9 sampleMeta).1.killed_at = sampleMeta.killed_at ∧
    (reconcile_status deadBackend 9 sampleMeta).1.finished_at =
      (if sampleMeta.status = "running" ∧ sampleMeta.tmux_session ≠ "" ∧
          deadBackend sampleMeta.tmux_session = false
        then some 9 else sampleMeta.finished_at) ∧
    (delete_task sampleStore 1 "t1").1.map Meta.created_at = some sampleMeta.created_at ∧
    (delete_task (delete_task sampleStore 1 "t1").2 2 "t1").1.map Meta.killed_at =
      some (some 2) :=
  ⟨((timestamps_amended sampleStore deadBackend true 9 1 2 "t1" "x").1 sampleMeta).1,
    ((timestamps_amended sampleStore deadBackend true 9 1 2 "t1" "x").1 sampleMeta).2,
    (timestamps_amended sampleStore deadBackend true 9 1 2 "t1" "x").2.1 sampleMeta,
    ((timestamps_amended sampleStore deadBackend true 9 1 2 "t1" "x").2.2.2.1
      sampleMeta (by decide)).1,
    (timestamps_amended sampleStore deadBackend true 9 1 2 "t1" "x").2.2.2.2
      sampleMeta (by decide)⟩

/-- Splitting never yields the empty list of parts. -/
theorem splitOn_result_ne_nil (x : Char) (xs : List Char) : xs.splitOn x ≠ [] := by
  rw [List.splitOn]
  exact List.splitOnP_ne_nil _ xs

/-- Every element of `splitOnP p` is free of elements satisfying `p`. -/
theorem splitOnP_parts_sepFree {α : Type} (p : α → Bool) (xs : List α) :
    ∀ l ∈ xs.splitOnP p, ∀ a ∈ l, p a = false := by
  induction xs with
  | nil =>
    intro l hl a ha
    simp only [List.splitOnP_nil, List.mem_singleton] at hl
    subst hl
    simp at ha
  | cons x xs ih =>
    intro l hl a ha
    rw [List.splitOnP_cons] at hl
    by_cases hx : p x = true
    · rw [if_pos hx] at hl
      rcases List.mem_cons.mp hl with h | h
      · subst h
        simp at ha
      · exact ih l h a ha
    · rw [if_neg hx] at hl
      obtain ⟨hd, tl, heq⟩ := List.exists_cons_of_ne_nil (List.splitOnP_ne_nil p xs)
      rw [heq, List.modifyHead_cons] at hl
      rcases List.mem_cons.mp hl with h | h
      · subst h
        rcases List.mem_cons.mp ha with h' | h'
        · subst h'
          simpa using hx
        · exact ih hd (by rw [heq]; exact List.mem_cons_self hd tl) a h'
      · exact ih l (by rw [heq]; exact List.mem_cons_of_mem hd h) a ha

/-- Every part produced by `splitOn x` is free of the separator. -/
theorem splitOn_parts_sepFree (x : Char) (xs : List Char) :
    ∀ l ∈ xs.splitOn x, x ∉ l := by
  intro l hl hmem
  rw [List.splitOn] at hl
  have h := splitOnP_parts_sepFree (fun a => a == x) xs l hl x hmem
  simp at h

/-- Splitting a text built from newline-terminated lines followed by a
(possibly empty) unterminated tail recovers exactly those pieces. -/
theorem splitOn_flatten_append (ps : List (List Char)) (q : List Char)
    (hq : '\n' ∉ q) :
    (∀ s ∈ ps, '\n' ∉ s) →
    ((ps.map (fun s => s ++ ['\n'])).flatten ++ q).splitOn '\n' = ps ++ [q] := by
  induction ps with
  | nil =>
    intro _
    simp only [List.map_nil, List.flatten_nil, List.nil_append]
    rw [List.splitOn]
    refine List.splitOnP_eq_single _ _ ?_
    intro a ha
    simp only [beq_iff_eq]
    intro h
    exact hq (h ▸ ha)
  | cons p ps ih =>
    intro hps
    have hp : ∀ a ∈ p, ¬((a == '\n') = true) := by
      intro a ha
      simp only [beq_iff_eq]
      intro h
      exact hps p (List.mem_cons_self p ps) (h ▸ ha)
    have hrest : ∀ s ∈ ps, '\n' ∉ s := fun s hs => hps s (List.mem_cons_of_mem p hs)
    rw [List.splitOn]
    rw [show ((p :: ps).map (fun s => s ++ ['\n'])).flatten ++ q
          = p ++ ('\n' :: ((ps.map (fun s => s ++ ['\n'])).flatten ++ q)) from by
        simp [List.append_assoc]]
    rw [List.splitOnP_first _ _ hp '\n' (by simp)]
    have ih' := ih hrest
    rw [List.splitOn] at ih'
    rw [ih']
    rfl

/-- `attachEnds` on parts ending with a final (possibly empty) tail. -/
theorem attachEnds_append (ps : List (List Char)) (q : List Char) :
    attachEnds (ps ++ [q]) =
      ps.map (fun s => s ++ ['\n']) ++ (if q = [] then [] else [q]) := by
  induction ps with
  | nil => simp [attachEnds]
  | cons p ps ih =>
    obtain ⟨a, l, h⟩ : ∃ a l, ps ++ [q] = a :: l := by
      cases ps with
      | nil => exact ⟨q, [], rfl⟩
      | cons b bs => exact ⟨b, bs ++ [q], rfl⟩
    simp only [List.cons_append]
    rw [h]
    simp only [attachEnds]
    rw [← h, ih]
    simp

/-- `attachEnds` never produces more lines than there were parts. -/
theorem attachEnds_length_le (l : List (List Char)) :
    (attachEnds l).length ≤ l.length := by
  induction l with
  | nil => simp [attachEnds]
  | cons p rest ih =>
    cases rest with
    | nil =>
      simp only [attachEnds]
      split <;> simp
    | cons a l' =>
      simp only [attachEnds, List.length_cons] at ih ⊢
      omega

/-- `lines[-t:]` has at most `t` elements. -/
theorem length_takeLast_le {α : Type} (l : List α) (t : Nat) :
    (takeLast l t).length ≤ t := by
  simp only [takeLast, List.length_drop]
  omega

/-- `lines[-t:]` of a non-empty list is non-empty when `t > 0`. -/
theorem takeLast_ne_nil {α : Type} (l : List α) (t : Nat)
    (hl : l ≠ []) (ht : 0 < t) : takeLast l t ≠ [] := by
  have h0 : 0 < l.length := List.length_pos.mpr hl
  have h1 : 0 < (takeLast l t).length := by
    simp only [takeLast, List.length_drop]
    omega
  exact List.ne_nil_of_length_pos h1

/-- `lines[-t:]` keeps only elements of the original list. -/
theorem takeLast_subset {α : Type} (l : List α) (t : Nat) :
    takeLast l t ⊆ l := List.drop_subset _ _

/-- `lines[-t:]` commutes with `map`. -/
theorem takeLast_map {α β : Type} (f : α → β) (l : List α) (t : Nat) :
    takeLast (l.map f) t = (takeLast l t).map f := by
  simp only [takeLast, List.length_map]
  exact (List.map_drop f l _).symm

/-- Taking the last `t > 0` elements of `A ++ [q]` keeps `q` and the last
`t - 1` elements of `A`. -/
theorem takeLast_append_singleton {α : Type} (A : List α) (q : α) (t : Nat)
    (ht : 0 < t) : takeLast (A ++ [q]) t = takeLast A (t - 1) ++ [q] := by
  simp only [takeLast, List.length_append, List.length_singleton]
  rw [List.drop_append_of_le_length (by omega)]
  have h : A.length + 1 - t = A.length - (t - 1) := by omega
  rw [h]

/-- Line count is bounded by the number of split parts. -/
theorem numLines_le_splitOn_length (r : List Char) :
    numLines r ≤ (r.splitOn '\n').length :=
  attachEnds_length_le _

/-- Live-capture branch bound: rejoining the last `t` split parts yields at
most `t` lines. -/
theorem numLines_live_tail_le (out : List Char) (t : Nat) (ht : 0 < t) :
    numLines (List.intercalate ['\n'] (takeLast (out.splitOn '\n') t)) ≤ t := by
  have hne : takeLast (out.splitOn '\n') t ≠ [] :=
    takeLast_ne_nil _ t (splitOn_result_ne_nil '\n' out) ht
  have hfree : ∀ s ∈ takeLast (out.splitOn '\n') t, '\n' ∉ s :=
    fun s hs => splitOn_parts_sepFree '\n' out s (takeLast_subset _ t hs)
  have hsplit := List.splitOn_intercalate (takeLast (out.splitOn '\n') t) '\n' hfree hne
  have h1 := numLines_le_splitOn_length
    (List.intercalate ['\n'] (takeLast (out.splitOn '\n') t))
  rw [hsplit] at h1
  exact le_trans h1 (length_takeLast_le _ t)

/-- Log-file branch bound: joining the last `t` readlines yields at most
`t` lines. -/
theorem numLines_log_tail_le (c : List Char) (t : Nat) (ht : 0 < t) :
    numLines (takeLast (pyReadlines c) t).flatten ≤ t := by
  obtain hnil | ⟨P, q, hPq⟩ := List.eq_nil_or_concat (c.splitOn '\n')
  · exact absurd hnil (splitOn_result_ne_nil '\n' c)
  · rw [List.concat_eq_append] at hPq
    have hfreeP : ∀ s ∈ P, '\n' ∉ s := by
      intro s hs
      exact splitOn_parts_sepFree '\n' c s (by rw [hPq]; exact List.mem_append_left _ hs)
    have hfreeq : '\n' ∉ q := by
      refine splitOn_parts_sepFree '\n' c q ?_
      rw [hPq]
      exact List.mem_append_right _ (List.mem_singleton.mpr rfl)
    have hread : pyReadlines c =
        P.map (fun s => s ++ ['\n']) ++ (if q = [] then [] else [q]) := by
      unfold pyReadlines
      rw [hPq, attachEnds_append]
    by_cases hq : q = []
    · rw [hread, if_pos hq, List.append_nil, takeLast_map]
      have hfree2 : ∀ s ∈ takeLast P t, '\n' ∉ s :=
        fun s hs => hfreeP s (takeLast_subset P t hs)
      have hsplit := splitOn_flatten_append (takeLast P t) [] (by simp) hfree2
      rw [List.append_nil] at hsplit
      have hnl : numLines ((takeLast P t).map (fun s => s ++ ['\n'])).flatten
          = (takeLast P t).length := by
        unfold numLines pyReadlines
        rw [hsplit, attachEnds_append, if_pos rfl, List.append_nil, List.length_map]
      rw [hnl]
      exact length_takeLast_le P t
    · rw [hread, if_neg hq, takeLast_append_singleton _ _ t ht, takeLast_map]
      have hfree2 : ∀ s ∈ takeLast P (t - 1), '\n' ∉ s :=
        fun s hs => hfreeP s (takeLast_subset P (t - 1) hs)
      have hsplit := splitOn_flatten_append (takeLast P (t - 1)) q hfreeq hfree2
      have hflat : (((takeLast P (t - 1)).map (fun s => s ++ ['\n'])) ++ [q]).flatten
          = ((takeLast P (t - 1)).map (fun s => s ++ ['\n'])).flatten ++ q := by
        simp
      rw [hflat]
      have hnl : numLines (((takeLast P (t - 1)).map (fun s => s ++ ['\n'])).flatten ++ q)
          = (takeLast P (t - 1)).length + 1 := by
        unfold numLines pyReadlines
        rw [hsplit, attachEnds_append, if_neg hq]
        simp
      rw [hnl]
      have h2 := length_takeLast_le P (t - 1)
      omega

/-- C8: for a known task and any positive `tail = t`, `get_task_output`
always returns a text of at most `t` lines (in Python's `readlines` sense),
never failing even when fewer than `t` lines exist; it serves the live
capture when the pane capture succeeded with non-blank content, falls back
to `output.log` when there is no live capture, and otherwise returns the
sentinel. -/
theorem get_task_output_tail_correct (st : Store) (cap log : Option (List Char))
    (id : String) (t : Nat) (m : Meta)
    (hm : st.tasks id = some m) (ht : 0 < t) :
    (∃ r, get_task_output st cap log id (some t) = some r ∧ numLines r ≤ t) ∧
    (∀ out, cap = some out → stripChars out ≠ [] →
      get_task_output st cap log id (some t) =
        some (List.intercalate ['\n'] (takeLast (out.splitOn '\n') t))) ∧
    (∀ c, cap = none → log = some c →
      get_task_output st cap log id (some t) =
        some (takeLast (pyReadlines c) t).flatten) ∧
    (cap = none → log = none →
      get_task_output st cap log id (some t) = some "(no output available)".toList) := by
  have htt : pyTruthyTail (some t) = true := by
    simp only [pyTruthyTail, bne_iff_ne, ne_eq]
    omega
  have hsent : numLines "(no output available)".toList = 1 := by decide
  refine ⟨?_, ?_, ?_, ?_⟩
  · cases cap with
    | some out =>
      by_cases hso : stripChars out = []
      · cases log with
        | some c =>
          have heq : get_task_output st (some out) (some c) id (some t) =
              some (takeLast (pyReadlines c) t).flatten := by
            simp [get_task_output, hm, hso, output_from_log, htt]
          exact ⟨_, heq, numLines_log_tail_le c t ht⟩
        | none =>
          have heq : get_task_output st (some out) none id (some t) =
              some "(no output available)".toList := by
            simp [get_task_output, hm, hso, output_from_log]
          refine ⟨_, heq, ?_⟩
          rw [hsent]
          omega
      · have heq : get_task_output st (some out) log id (some t) =
            some (List.intercalate ['\n'] (takeLast (out.splitOn '\n') t)) := by
          simp [get_task_output, hm, hso, htt]
        exact ⟨_, heq, numLines_live_tail_le out t ht⟩
    | none =>
      cases log with
      | some c =>
        have heq : get_task_output st none (some c) id (some t) =
            some (takeLast (pyReadlines c) t).flatten := by
          simp [get_task_output, hm, output_from_log, htt]
        exact ⟨_, heq, numLines_log_tail_le c t ht⟩
      | none =>
        have heq : get_task_output st none none id (some t) =
            some "(no output available)".toList := by
          simp [get_task_output, hm, output_from_log]
        refine ⟨_, heq, ?_⟩
        rw [hsent]
        omega
  · intro out hc hso
    subst hc
    simp [get_task_output, hm, hso, htt]
  · intro c hc hl
    subst hc
    subst hl
    simp [get_task_output, hm, output_from_log, htt]
  · intro hc hl
    subst hc
    subst hl
    simp [get_task_output, hm, output_from_log]

/-- Witness for C8: tailing a three-line capture to 2 lines on the sample
store. -/
theorem get_task_output_tail_correct_witness :
    sampleStore.tasks "t1" = some sampleMeta ∧ 0 < 2 ∧
    stripChars "a\nb\nc".toList ≠ [] ∧
    get_task_output sampleStore (some "a\nb\nc".toList) none "t1" (some 2) =
      some (List.intercalate ['\n'] (takeLast ("a\nb\nc".toList.splitOn '\n') 2)) :=
  ⟨by decide, by decide, by decide,
    (get_task_output_tail_correct sampleStore (some "a\nb\nc".toList) none "t1" 2
        sampleMeta (by decide) (by decide)).2.1 "a\nb\nc".toList rfl (by decide)⟩

/-- C10: a `tail` of `0` is falsy in the guarding `if tail:` checks, so
`get_task_output` behaves exactly as if no tail had been given — both on
the live-capture path and on the log-file fallback path. -/
theorem get_task_output_tail_zero (st : Store) (cap log : Option (List Char))
    (id : String) :
    get_task_output st cap log id (some 0) = get_task_output st cap log id none := by
  cases h : st.tasks id with
  | none => simp [get_task_output, h]
  | some m =>
    cases cap with
    | none =>
      cases log with
      | none => simp [get_task_output, h, output_from_log]
      | some c => simp [get_task_output, h, output_from_log, pyTruthyTail]
    | some out =>
      by_cases hso : stripChars out = []
      · cases log with
        | none => simp [get_task_output, h, hso, output_from_log]
        | some c => simp [get_task_output, h, hso, output_from_log, pyTruthyTail]
      · simp [get_task_output, h, hso, pyTruthyTail]
